import Mathlib

/-!
# Verification of the `create-opencode-workspace` scaffolding CLI

Shallow embedding of `bin/cli.js`: an interactive scaffolding tool that
prompts for a template identifier and a destination name, resolves the
destination against the current working directory, refuses to overwrite an
existing target, and recursively copies the bundled template tree into the
target.

Modelling decisions:
* A filesystem path is a list of segments (`Path`); all paths in play are
  absolute, rooted at the filesystem root.  Node's `path.resolve` is modelled
  by normalising the concatenated segment list (`resolvePath`), following its
  documented right-to-left resolution and `.`/`..` normalisation.
* The filesystem is a finite association list from file paths to file
  contents (`FS`).  Directories are implicit: a path is a directory when it
  is a proper prefix of some file's path.
* `fs-extra`'s `copy` (an external dependency of the CLI) is modelled by
  `fsCopy`: it fails when the source does not exist, and otherwise
  duplicates every file under the source at the destination with the same
  relative path and identical contents.  An injectable fault models an I/O
  error partway through the transfer.
* The two interactive prompts are modelled by their outcomes: `none` means
  the user cancelled at that prompt, `some s` means the prompt produced the
  string `s`.  `init` is the straight-line body of `init()` in `bin/cli.js`,
  returning the list of observable events, the process exit status and the
  final filesystem.
-/

namespace Scaffold

/-- An absolute filesystem path, as a list of name segments from the root. -/
abbrev Path := List String

/-- The filesystem: a finite map (as an association list) from the paths of
regular files to their byte contents (modelled as strings). -/
abbrev FS := List (Path × String)

/-- Worker for `splitPath`: walks the characters, accumulating the current
segment in reverse; `/` closes a segment, empty segments are dropped. -/
def splitPathAux : List Char → List Char → List String
  | [], cur => if cur.isEmpty then [] else [⟨cur.reverse⟩]
  | c :: rest, cur =>
    if c = '/' then
      if cur.isEmpty then splitPathAux rest []
      else ⟨cur.reverse⟩ :: splitPathAux rest []
    else splitPathAux rest (c :: cur)

/-- Split a raw path string on `/`, discarding empty segments, as Node's
path parsing does for POSIX paths. -/
def splitPath (s : String) : List String :=
  splitPathAux s.data []

/-- One step of Node path normalisation: `.` is dropped, `..` removes the
last accumulated segment (a no-op at the root), anything else is appended. -/
def normStep (acc : List String) (seg : String) : List String :=
  if seg = "." then acc
  else if seg = ".." then acc.dropLast
  else acc ++ [seg]

/-- Normalise a segment list by resolving `.` and `..`, as
`path.resolve` does after joining. -/
def normSegs (segs : List String) : List String :=
  segs.foldl normStep []

/-- Whether a raw path string is absolute (starts with `/`). -/
def isAbs (s : String) : Bool :=
  match s.data with
  | [] => false
  | c :: _ => c = '/'

/-- Modelled from Node's documented `path.resolve(cwd, name)` semantics for
POSIX paths: an absolute `name` stands alone, a relative `name` is joined
onto the (already absolute, segment-form) `cwd`; the result is normalised.
This is the embedding of `path.resolve(process.cwd(), response.projectName)`
at `bin/cli.js:37`. -/
def resolvePath (cwd : Path) (name : String) : Path :=
  if isAbs name then normSegs (splitPath name)
  else normSegs (cwd ++ splitPath name)

/-- Embedding of `path.resolve(__dirname, '../templates', response.template)`
at `bin/cli.js:38`: right-to-left resolution means an absolute template id
stands alone, otherwise `../templates/<id>` is joined onto the script
directory and normalised. -/
def templateDirOf (scriptDir : Path) (tpl : String) : Path :=
  if isAbs tpl then normSegs (splitPath tpl)
  else normSegs (scriptDir ++ [".."] ++ ["templates"] ++ splitPath tpl)

/-- Whether `p` is a regular file in `fs`. -/
def isFile (fs : FS) (p : Path) : Bool :=
  fs.any (fun e => decide (e.1 = p))

/-- Whether `p` is a directory in `fs`: some file lives strictly below it. -/
def isDir (fs : FS) (p : Path) : Bool :=
  fs.any (fun e => decide (p ≠ e.1 ∧ p <+: e.1))

/-- Embedding of `fs.existsSync(targetDir)` at `bin/cli.js:40`: `p` exists
when it is a file or a directory. -/
def pathExists (fs : FS) (p : Path) : Bool :=
  isFile fs p || isDir fs p

/-- Relocate one filesystem entry from under `src` to under `dst`,
preserving its relative path and contents; `none` if it is not under
`src`. -/
def relocate (src dst : Path) (e : Path × String) : Option (Path × String) :=
  if src <+: e.1 then some (dst ++ e.1.drop src.length, e.2) else none

/-- Recursive copy of the tree rooted at `src` to `dst`: every file at
`src ++ rel` is duplicated at `dst ++ rel` with identical contents; all
other files are untouched. -/
def copyTree (fs : FS) (src dst : Path) : FS :=
  fs.filterMap (relocate src dst) ++ fs

/-- A transfer that failed after copying only the first `k` files under
`src`: the partial tree an interrupted copy leaves behind. -/
def copyTreeUpTo (fs : FS) (src dst : Path) (k : Nat) : FS :=
  (fs.filterMap (relocate src dst)).take k ++ fs

/-- Modelled from `fs-extra`'s documented `copy(src, dst)` behaviour (the
CLI's external dependency, called at `bin/cli.js:48`): rejects with `ENOENT`
when the source does not exist, creating nothing; otherwise recursively
copies the tree, creating intermediate directories as needed.  `fault`
injects an I/O error after `k` files, modelling a transfer failure.
Returns the new filesystem and the error message, if any. -/
def fsCopy (fs : FS) (src dst : Path) (fault : Option (Nat × String)) :
    FS × Option String :=
  if pathExists fs src then
    match fault with
    | none => (copyTree fs src dst, none)
    | some (k, msg) => (copyTreeUpTo fs src dst k, some msg)
  else
    (fs, some "ENOENT: no such file or directory")

/-- The template choice list hard-coded in the `prompts` select question at
`bin/cli.js:18-21`: display title paired with identifier value. -/
def choices : List (String × String) :=
  [("Content Creator (Blog, Social Media, Audits)", "content-creator")]

/-- JavaScript truthiness of a prompt answer, as tested by
`!response.template || !response.projectName` at `bin/cli.js:31`:
`undefined` (cancelled) and the empty string are falsy. -/
def truthy : Option String → Bool
  | none => false
  | some s => s ≠ ""

/-- Observable events of one CLI invocation, in program order. -/
inductive Ev where
  /-- The select question for the template is shown. -/
  | promptTemplate : Ev
  /-- The text question for the project name is shown. -/
  | promptName : Ev
  /-- The `Initialization cancelled` message; `process.exit(1)` follows. -/
  | cancelExit : Ev
  /-- Event: `fs.existsSync` ran on path `p` and returned `r`. -/
  | existsCheck (p : Path) (r : Bool) : Ev
  /-- The `already exists` error for path `p`; `process.exit(1)` follows. -/
  | existsExit (p : Path) : Ev
  /-- Event: `fs.copy(src, dst)` was invoked. -/
  | copyCall (src dst : Path) : Ev
  /-- The copy resolved; the success message and next steps are printed. -/
  | copyOk : Ev
  /-- The copy rejected; `Failed to copy template files` is printed with
  the underlying message. -/
  | copyFail (msg : String) : Ev
deriving DecidableEq, Repr

/-- The whole observable outcome of one invocation. -/
structure RunResult where
  /-- The events, in program order. -/
  events : List Ev
  /-- The process exit status. -/
  exitCode : Nat
  /-- The filesystem when the process exits. -/
  fs : FS
deriving DecidableEq, Repr

/-- The inputs one invocation runs against: the working directory, the
installed script's own directory (`__dirname`), the filesystem, the outcome
of each interactive prompt (`none` = cancelled there), and an optional
injected I/O fault for the transfer. -/
structure World where
  cwd : Path
  scriptDir : Path
  fs : FS
  templateResponse : Option String
  nameResponse : Option String
  copyFault : Option (Nat × String)

/-- The prompt events of the single `prompts([...])` call at
`bin/cli.js:14-29`: the select question always runs; with the library's
default cancel behaviour the text question is skipped only when the user
cancels at the select. -/
def promptEvs (w : World) : List Ev :=
  match w.templateResponse with
  | none => [.promptTemplate]
  | some _ => [.promptTemplate, .promptName]

/-- The target directory `path.resolve(process.cwd(), response.projectName)`
computed at `bin/cli.js:37`. -/
def targetOf (w : World) : Path :=
  resolvePath w.cwd (w.nameResponse.getD "")

/-- The template source directory computed at `bin/cli.js:38`. -/
def tplDirOf (w : World) : Path :=
  templateDirOf w.scriptDir (w.templateResponse.getD "")

/-- Shallow embedding of `init()` in `bin/cli.js:11-57` followed by the
top-level `init().catch(...)` at `bin/cli.js:59-62`.  Control flow:
prompt for template and name; if either answer is falsy, print the
cancellation message and exit 1; otherwise resolve the target and template
directories, exit 1 if the target already exists, and otherwise run
`fs.copy` inside `try/catch` — on success print the success message, on
failure print the error; in both cases the function returns normally and
the process exits with status 0. -/
def init (w : World) : RunResult :=
  if truthy w.templateResponse && truthy w.nameResponse then
    let targetDir := targetOf w
    let templateDir := tplDirOf w
    if pathExists w.fs targetDir then
      { events := promptEvs w ++ [.existsCheck targetDir true, .existsExit targetDir]
        exitCode := 1
        fs := w.fs }
    else
      match fsCopy w.fs templateDir targetDir w.copyFault with
      | (fs', none) =>
        { events := promptEvs w ++
            [.existsCheck targetDir false, .copyCall templateDir targetDir, .copyOk]
          exitCode := 0
          fs := fs' }
      | (fs', some msg) =>
        { events := promptEvs w ++
            [.existsCheck targetDir false, .copyCall templateDir targetDir, .copyFail msg]
          exitCode := 0
          fs := fs' }
  else
    { events := promptEvs w ++ [.cancelExit]
      exitCode := 1
      fs := w.fs }

/-- The subtree of `fs` rooted at `root`: the relative path and contents of
every file at or below `root`. -/
def subtree (fs : FS) (root : Path) : FS :=
  fs.filterMap (fun e =>
    if root <+: e.1 then some (e.1.drop root.length, e.2) else none)

/-! ## Concrete worlds used to exercise the model -/

/-- A plausible install location of `bin/cli.js` (`__dirname`). -/
def demoScript : Path := ["usr", "lib", "cow", "bin"]

/-- The bundled `content-creator` template root next to `bin/`. -/
def demoTplDir : Path := ["usr", "lib", "cow", "templates", "content-creator"]

/-- A miniature installed filesystem: two files of the bundled
`content-creator` template, nothing else. -/
def demoFS : FS :=
  [(demoTplDir ++ ["SKILL.md"], "skill"),
   (demoTplDir ++ [".opencode", "commands", "draft.md"], "draft")]

/-- The happy-path invocation: template `content-creator`, destination name
`my-workspace`, absent target, no I/O fault. -/
def demoWorld : World :=
  { cwd := ["home", "u"]
    scriptDir := demoScript
    fs := demoFS
    templateResponse := some "content-creator"
    nameResponse := some "my-workspace"
    copyFault := none }

/-- The happy-path invocation with an I/O fault injected after one file of
the transfer. -/
def faultWorld : World :=
  { demoWorld with copyFault := some (1, "EACCES: permission denied") }

/-- The invocation in which the destination-name answer is the empty
string. -/
def emptyNameWorld : World :=
  { demoWorld with nameResponse := some "" }

/-- The invocation in which the destination-name answer is whitespace
only. -/
def spaceNameWorld : World :=
  { demoWorld with nameResponse := some "   " }

/-- The invocation in which an identifier absent from the choice list is
injected as the template answer. -/
def unknownTplWorld : World :=
  { demoWorld with templateResponse := some "nonexistent-template" }

/-- The invocation in which the resolved target already holds a file. -/
def occupiedWorld : World :=
  { demoWorld with fs := (["home", "u", "my-workspace", "x.txt"], "x") :: demoFS }

/-- The invocation cancelled at the template select prompt. -/
def cancelTemplateWorld : World :=
  { demoWorld with templateResponse := none }

/-- The invocation cancelled at the destination-name prompt. -/
def cancelNameWorld : World :=
  { demoWorld with nameResponse := none }

/-- The happy-path invocation with the nested destination name `a/b`. -/
def sepWorld : World :=
  { demoWorld with nameResponse := some "a/b" }

/-- Variant of `demoWorld` running against an unrelated filesystem, for purity
comparisons. -/
def otherFsWorld : World :=
  { demoWorld with fs := [(["tmp", "scratch.txt"], "s")] }

/-- Variant of `demoWorld` run from a different working directory with a different
destination name, for template-source stability comparisons. -/
def movedWorld : World :=
  { demoWorld with cwd := ["srv", "data"], nameResponse := some "other-name" }

/-! ## Helper lemmas -/

/-- The prompt phase shows either only the select question (cancelled
there) or both questions. -/
theorem promptEvs_cases (w : World) :
    promptEvs w = [Ev.promptTemplate] ∨
    promptEvs w = [Ev.promptTemplate, Ev.promptName] := by
  cases hT : w.templateResponse <;> simp [promptEvs, hT]

/-- Once the select question is answered, the name question is shown. -/
theorem promptEvs_of_answered (w : World) (h : truthy w.templateResponse = true) :
    promptEvs w = [Ev.promptTemplate, Ev.promptName] := by
  cases hT : w.templateResponse with
  | none => rw [hT] at h; simp [truthy] at h
  | some t => simp [promptEvs, hT]

/-- Unfolding `init` on the cancellation branch. -/
theorem init_cancel (w : World)
    (h : (truthy w.templateResponse && truthy w.nameResponse) = false) :
    init w = { events := promptEvs w ++ [Ev.cancelExit], exitCode := 1, fs := w.fs } := by
  simp [init, h]

/-- Unfolding `init` on the target-exists branch. -/
theorem init_target_exists (w : World)
    (hb : (truthy w.templateResponse && truthy w.nameResponse) = true)
    (hex : pathExists w.fs (targetOf w) = true) :
    init w = { events := promptEvs w ++
                 [Ev.existsCheck (targetOf w) true, Ev.existsExit (targetOf w)]
               exitCode := 1, fs := w.fs } := by
  simp [init, hb, hex]

/-- Unfolding `init` on the transfer branch, given the outcome of the
copy. -/
theorem init_copy_result (w : World) (fs' : FS) (err : Option String)
    (hb : (truthy w.templateResponse && truthy w.nameResponse) = true)
    (hex : pathExists w.fs (targetOf w) = false)
    (hres : fsCopy w.fs (tplDirOf w) (targetOf w) w.copyFault = (fs', err)) :
    init w = { events := promptEvs w ++
                 [Ev.existsCheck (targetOf w) false,
                  Ev.copyCall (tplDirOf w) (targetOf w), err.elim Ev.copyOk Ev.copyFail]
               exitCode := 0, fs := fs' } := by
  cases err <;> simp [init, hb, hex, hres]

/-- A filesystem in which `r` does not exist has no file at or below `r`. -/
theorem not_under_of_not_exists {fs : FS} {r : Path}
    (h : pathExists fs r = false) : ∀ e ∈ fs, ¬ r <+: e.1 := by
  intro e he hpre
  rcases eq_or_ne r e.1 with heq | hne
  · have hf : isFile fs r = true := by
      simp only [isFile, List.any_eq_true, decide_eq_true_eq]
      exact ⟨e, he, heq.symm⟩
    simp [pathExists, hf] at h
  · have hd : isDir fs r = true := by
      simp only [isDir, List.any_eq_true, decide_eq_true_eq]
      exact ⟨e, he, hne, hpre⟩
    simp [pathExists, hd] at h

/-- The subtree at a root below which no file lives is empty. -/
theorem subtree_eq_nil {r : Path} :
    ∀ {fs : FS}, (∀ e ∈ fs, ¬ r <+: e.1) → subtree fs r = [] := by
  intro fs
  induction fs with
  | nil => intro _; rfl
  | cons e t ih =>
    intro h
    have he : ¬ r <+: e.1 := h e (List.mem_cons_self e t)
    have ht := fun x hx => h x (List.mem_cons_of_mem e hx)
    simpa [subtree, List.filterMap_cons, he] using ih ht

/-- Reading back the relocated entries from under `dst` recovers exactly
the subtree that was under `src`. -/
theorem subtree_relocate (src dst : Path) :
    ∀ (fs : FS), subtree (fs.filterMap (relocate src dst)) dst = subtree fs src := by
  intro fs
  induction fs with
  | nil => rfl
  | cons e t ih =>
    by_cases h : src <+: e.1
    · obtain ⟨rest, hrest⟩ := h
      have hpre : src <+: e.1 := ⟨rest, hrest⟩
      have hdrop : e.1.drop src.length = rest := by
        rw [← hrest]; exact List.drop_left src rest
      simp only [relocate, subtree, List.filterMap_cons, if_pos hpre, hdrop,
        if_pos (List.prefix_append dst rest), List.drop_left]
      exact congrArg (List.cons _) ih
    · simp only [relocate, subtree, List.filterMap_cons, if_neg h]
      exact ih

/-- After a successful copy into a previously absent `dst`, the subtree at
`dst` equals the subtree that was at `src`. -/
theorem subtree_copyTree {fs : FS} {src dst : Path}
    (h : pathExists fs dst = false) :
    subtree (copyTree fs src dst) dst = subtree fs src := by
  have h2 := not_under_of_not_exists h
  calc subtree (copyTree fs src dst) dst
      = subtree (fs.filterMap (relocate src dst)) dst ++ subtree fs dst := by
        simp [copyTree, subtree, List.filterMap_append]
    _ = subtree fs src ++ ([] : FS) := by
        rw [subtree_relocate, subtree_eq_nil h2]
    _ = subtree fs src := by simp

/-- Every relocated entry lies under `dst`. -/
theorem relocated_under {src dst : Path} {fs : FS} {p : Path} {c : String}
    (h : (p, c) ∈ fs.filterMap (relocate src dst)) : dst <+: p := by
  rw [List.mem_filterMap] at h
  obtain ⟨e, _, hrel⟩ := h
  by_cases hp : src <+: e.1
  · simp only [relocate, if_pos hp, Option.some_inj, Prod.mk.injEq] at hrel
    rw [← hrel.1]
    exact List.prefix_append dst _
  · simp [relocate, if_neg hp] at hrel

/-- Whatever `fsCopy` does, every file of the output was already present or
lies under the destination. -/
theorem fsCopy_writes_under {fs : FS} {src dst : Path} {fault : Option (Nat × String)}
    {p : Path} {c : String}
    (h : (p, c) ∈ (fsCopy fs src dst fault).1) : (p, c) ∈ fs ∨ dst <+: p := by
  unfold fsCopy at h
  by_cases hex : pathExists fs src = true
  · rw [if_pos hex] at h
    cases fault with
    | none =>
      simp only [copyTree, List.mem_append] at h
      rcases h with h | h
      · exact Or.inr (relocated_under h)
      · exact Or.inl h
    | some f =>
      simp only [copyTreeUpTo, List.mem_append] at h
      rcases h with h | h
      · exact Or.inr (relocated_under (List.take_subset _ _ h))
      · exact Or.inl h
  · rw [Bool.not_eq_true] at hex
    rw [if_neg (by simp [hex])] at h
    exact Or.inl h

/-- When the source is missing, `fsCopy` rejects with `ENOENT` and writes
nothing, whatever the injected fault. -/
theorem fsCopy_src_missing {fs : FS} {src dst : Path} {fault : Option (Nat × String)}
    (h : pathExists fs src = false) :
    fsCopy fs src dst fault = (fs, some "ENOENT: no such file or directory") := by
  simp [fsCopy, h]

/-- A `copyCall` event can only arise on the transfer branch: its source is
the template directory, its destination the resolved target, the target was
just checked absent, and the check event immediately precedes the call. -/
theorem copyCall_mem {w : World} {s d : Path}
    (h : Ev.copyCall s d ∈ (init w).events) :
    s = tplDirOf w ∧ d = targetOf w ∧ pathExists w.fs (targetOf w) = false ∧
    ∃ tail, (init w).events = promptEvs w ++
      Ev.existsCheck (targetOf w) false :: Ev.copyCall (tplDirOf w) (targetOf w) :: tail := by
  by_cases hb : (truthy w.templateResponse && truthy w.nameResponse) = true
  · by_cases hex : pathExists w.fs (targetOf w) = true
    · rw [init_target_exists w hb hex] at h
      rcases promptEvs_cases w with hp | hp <;> rw [hp] at h <;> simp at h
    · rw [Bool.not_eq_true] at hex
      rcases hres : fsCopy w.fs (tplDirOf w) (targetOf w) w.copyFault with ⟨fs', err⟩
      have heq := init_copy_result w fs' err hb hex hres
      rw [heq] at h
      have hsd : s = tplDirOf w ∧ d = targetOf w := by
        rcases promptEvs_cases w with hp | hp <;> rw [hp] at h <;> cases err <;>
          simp [Option.elim] at h <;> exact ⟨h.1, h.2⟩
      refine ⟨hsd.1, hsd.2, hex, [err.elim Ev.copyOk Ev.copyFail], ?_⟩
      rw [heq]
  · rw [Bool.not_eq_true] at hb
    rw [init_cancel w hb] at h
    rcases promptEvs_cases w with hp | hp <;> rw [hp] at h <;> simp at h

/-- An `existsCheck` event always carries the resolved target path. -/
theorem existsCheck_mem {w : World} {p : Path} {r : Bool}
    (h : Ev.existsCheck p r ∈ (init w).events) : p = targetOf w := by
  by_cases hb : (truthy w.templateResponse && truthy w.nameResponse) = true
  · by_cases hex : pathExists w.fs (targetOf w) = true
    · rw [init_target_exists w hb hex] at h
      rcases promptEvs_cases w with hp | hp <;> rw [hp] at h <;> simp at h <;>
        exact h.1
    · rw [Bool.not_eq_true] at hex
      rcases hres : fsCopy w.fs (tplDirOf w) (targetOf w) w.copyFault with ⟨fs', err⟩
      rw [init_copy_result w fs' err hb hex hres] at h
      rcases promptEvs_cases w with hp | hp <;> rw [hp] at h <;> cases err <;>
        simp [Option.elim] at h <;> exact h.1
  · rw [Bool.not_eq_true] at hb
    rw [init_cancel w hb] at h
    rcases promptEvs_cases w with hp | hp <;> rw [hp] at h <;> simp at h

/-- Folding plain segments (neither `.` nor `..`) onto an accumulator just
appends them. -/
theorem foldl_normStep_plain :
    ∀ (l : List String) (acc : List String),
      (∀ s ∈ l, s ≠ "." ∧ s ≠ "..") → l.foldl normStep acc = acc ++ l := by
  intro l
  induction l with
  | nil => intro acc _; simp
  | cons s t ih =>
    intro acc h
    have hs := h s (List.mem_cons_self s t)
    have hstep : normStep acc s = acc ++ [s] := by
      simp [normStep, hs.1, hs.2]
    rw [List.foldl_cons, hstep, ih (acc ++ [s]) (fun x hx => h x (List.mem_cons_of_mem s hx))]
    simp

/-- Normalisation is the identity on dot-free segment lists. -/
theorem normSegs_plain {l : List String} (h : ∀ s ∈ l, s ≠ "." ∧ s ≠ "..") :
    normSegs l = l := by
  simpa using foldl_normStep_plain l [] h

/-! ## Claims -/

/-- Claim C1: The claim states that when the recursive copy fails with an I/O
error the process terminates with a non-zero exit status.  The code violates
this: in this run the transfer fails partway (`copyFail` is reported and the
target tree is incomplete — `copyOk` never happens and the filesystem
differs from a completed copy), yet the `catch` block of `init()` swallows
the rejection after logging it, so the process exits with status 0. -/
theorem transfer_failure_exit_zero :
    Ev.copyFail "EACCES: permission denied" ∈ (init faultWorld).events ∧
    Ev.copyOk ∉ (init faultWorld).events ∧
    (init faultWorld).fs ≠ (init demoWorld).fs ∧
    (init faultWorld).exitCode = 0 := by decide

/-- Claim C2 (counterexample): The claim states that an empty or
whitespace-only destination name is re-prompted within the Selection
Controller and never surfaces as a process failure.  At this concrete run
the empty answer terminates the process with exit status 1 (the
cancellation branch) and no further prompt occurs; and a whitespace-only
answer is not re-prompted either — it proceeds straight to the existence
check and the copy. -/
theorem empty_name_terminates :
    (init emptyNameWorld).exitCode = 1 ∧
    (init emptyNameWorld).events = [Ev.promptTemplate, Ev.promptName, Ev.cancelExit] ∧
    (init emptyNameWorld).fs = emptyNameWorld.fs ∧
    Ev.existsCheck (targetOf spaceNameWorld) false ∈ (init spaceNameWorld).events ∧
    Ev.copyOk ∈ (init spaceNameWorld).events := by decide

/-- Claim C2 (amended): An empty destination-name answer is treated like
cancellation, not re-prompted: the process exits with status 1, performs no
filesystem interaction (no existence check, no copy) and leaves the
filesystem unchanged.  (Whitespace-only names are accepted and proceed to
materialization.) -/
theorem empty_name_cancels (w : World) (h : w.nameResponse = some "") :
    (init w).exitCode = 1 ∧ (init w).fs = w.fs ∧
    (∀ s d, Ev.copyCall s d ∉ (init w).events) ∧
    (∀ p r, Ev.existsCheck p r ∉ (init w).events) := by
  have hb : (truthy w.templateResponse && truthy w.nameResponse) = false := by
    simp [truthy, h]
  rw [init_cancel w hb]
  refine ⟨rfl, rfl, ?_, ?_⟩ <;> intro a b hmem <;>
    rcases promptEvs_cases w with hp | hp <;> rw [hp] at hmem <;> simp at hmem

/-- Claim C2 (witness): The amended statement applied to the concrete
empty-name run. -/
theorem empty_name_cancels_check :
    emptyNameWorld.nameResponse = some "" ∧
    (init emptyNameWorld).exitCode = 1 ∧
    Ev.copyCall (tplDirOf emptyNameWorld) (targetOf emptyNameWorld) ∉
      (init emptyNameWorld).events :=
  ⟨rfl, (empty_name_cancels emptyNameWorld rfl).1,
   (empty_name_cancels emptyNameWorld rfl).2.2.1 _ _⟩

/-- Claim C3: When the resolved target already exists — as a file or as a
directory — at the moment `fs.existsSync` runs, the run aborts with exit
status 1, performs zero filesystem writes, and never calls the copy; the
events are exactly prompt, prompt, failed check, abort. -/
theorem target_exists_aborts (w : World)
    (ht : truthy w.templateResponse = true) (hn : truthy w.nameResponse = true)
    (hex : pathExists w.fs (targetOf w) = true) :
    (init w).exitCode = 1 ∧ (init w).fs = w.fs ∧
    (∀ s d, Ev.copyCall s d ∉ (init w).events) ∧
    (init w).events = [Ev.promptTemplate, Ev.promptName,
      Ev.existsCheck (targetOf w) true, Ev.existsExit (targetOf w)] := by
  have hb : (truthy w.templateResponse && truthy w.nameResponse) = true := by
    rw [ht, hn]; rfl
  have hp := promptEvs_of_answered w ht
  rw [init_target_exists w hb hex]
  refine ⟨rfl, rfl, ?_, by rw [hp]; rfl⟩
  intro s d hmem
  rw [hp] at hmem
  simp at hmem

/-- Claim C3 (witness): The statement applied to the concrete run whose
target directory already holds a file. -/
theorem target_exists_aborts_check :
    pathExists occupiedWorld.fs (targetOf occupiedWorld) = true ∧
    (init occupiedWorld).exitCode = 1 ∧ (init occupiedWorld).fs = occupiedWorld.fs :=
  ⟨by decide,
   (target_exists_aborts occupiedWorld (by decide) (by decide) (by decide)).1,
   (target_exists_aborts occupiedWorld (by decide) (by decide) (by decide)).2.1⟩

/-- Claim C4: When the transfer completes without error (absent target,
readable source, no I/O fault), the process exits with status 0 and the
target tree is identical to the template tree: the subtrees agree as lists
of (relative path, contents) pairs — same relative paths, same contents,
same file count. -/
theorem successful_copy_faithful (w : World)
    (ht : truthy w.templateResponse = true) (hn : truthy w.nameResponse = true)
    (htgt : pathExists w.fs (targetOf w) = false)
    (hsrc : pathExists w.fs (tplDirOf w) = true)
    (hf : w.copyFault = none) :
    (init w).exitCode = 0 ∧ Ev.copyOk ∈ (init w).events ∧
    subtree (init w).fs (targetOf w) = subtree w.fs (tplDirOf w) := by
  have hb : (truthy w.templateResponse && truthy w.nameResponse) = true := by
    rw [ht, hn]; rfl
  have hres : fsCopy w.fs (tplDirOf w) (targetOf w) w.copyFault =
      (copyTree w.fs (tplDirOf w) (targetOf w), none) := by
    simp [fsCopy, hsrc, hf]
  rw [init_copy_result w _ none hb htgt hres]
  refine ⟨rfl, ?_, ?_⟩
  · rw [promptEvs_of_answered w ht]; simp
  · exact subtree_copyTree htgt

/-- Claim C4 (witness): The statement applied to the concrete happy-path
run. -/
theorem successful_copy_faithful_check :
    (init demoWorld).exitCode = 0 ∧
    subtree (init demoWorld).fs (targetOf demoWorld) = subtree demoWorld.fs (tplDirOf demoWorld) :=
  ⟨(successful_copy_faithful demoWorld (by decide) (by decide) (by decide)
      (by decide) rfl).1,
   (successful_copy_faithful demoWorld (by decide) (by decide) (by decide)
      (by decide) rfl).2.2⟩

/-- Claim C5: Cancelling at either prompt (the select or the text question)
exits with status 1, leaves the filesystem exactly as it was, and never
invokes the copy. -/
theorem cancellation_no_side_effects (w : World)
    (h : w.templateResponse = none ∨ w.nameResponse = none) :
    (init w).exitCode = 1 ∧ (init w).fs = w.fs ∧
    (∀ s d, Ev.copyCall s d ∉ (init w).events) := by
  have hb : (truthy w.templateResponse && truthy w.nameResponse) = false := by
    rcases h with h | h <;> simp [truthy, h]
  rw [init_cancel w hb]
  refine ⟨rfl, rfl, ?_⟩
  intro s d hmem
  rcases promptEvs_cases w with hp | hp <;> rw [hp] at hmem <;> simp at hmem

/-- Claim C5 (witness): The statement applied to the concrete run cancelled
at the destination-name prompt. -/
theorem cancellation_no_side_effects_check :
    (cancelNameWorld.templateResponse = none ∨ cancelNameWorld.nameResponse = none) ∧
    (init cancelNameWorld).exitCode = 1 ∧ (init cancelNameWorld).fs = cancelNameWorld.fs :=
  ⟨Or.inr rfl, (cancellation_no_side_effects cancelNameWorld (Or.inr rfl)).1,
   (cancellation_no_side_effects cancelNameWorld (Or.inr rfl)).2.1⟩

/-- Claim C6 (counterexample): The claim states that an identifier outside
the Registry fails with `TemplateNotFound` and that the destination-name
prompt is never reached.  The code has no such lookup: at this concrete run
the injected identifier `nonexistent-template` is not among the select
choices, yet the destination-name prompt is still shown, nothing fails at
resolution time, and the run proceeds to the copy — which rejects with
`ENOENT` and leaves the process exiting with status 0. -/
theorem unknown_template_reaches_name_prompt :
    ("nonexistent-template" ∉ choices.map Prod.snd) ∧
    Ev.promptName ∈ (init unknownTplWorld).events ∧
    (init unknownTplWorld).exitCode = 0 ∧
    Ev.copyFail "ENOENT: no such file or directory" ∈ (init unknownTplWorld).events := by
  decide

/-- Claim C6 (amended): The code performs no registry lookup and has no
`TemplateNotFound` error: the select constrains the template answer, and
whenever both prompts are answered the destination-name prompt has run
regardless of the identifier; an identifier whose template directory does
not exist is only caught by the copy itself, which rejects with `ENOENT` —
reported, with no filesystem change, and with exit status 0. -/
theorem missing_template_source_reported (w : World)
    (ht : truthy w.templateResponse = true) (hn : truthy w.nameResponse = true)
    (htgt : pathExists w.fs (targetOf w) = false)
    (hsrc : pathExists w.fs (tplDirOf w) = false) :
    Ev.promptName ∈ (init w).events ∧ (init w).exitCode = 0 ∧
    Ev.copyFail "ENOENT: no such file or directory" ∈ (init w).events ∧
    (init w).fs = w.fs := by
  have hb : (truthy w.templateResponse && truthy w.nameResponse) = true := by
    rw [ht, hn]; rfl
  have hres := @fsCopy_src_missing w.fs (tplDirOf w) (targetOf w) w.copyFault hsrc
  rw [init_copy_result w _ _ hb htgt hres]
  refine ⟨?_, rfl, ?_, rfl⟩ <;> rw [promptEvs_of_answered w ht] <;> simp

/-- Claim C6 (witness): The amended statement applied to the concrete run
with the injected unknown identifier. -/
theorem missing_template_source_reported_check :
    pathExists unknownTplWorld.fs (tplDirOf unknownTplWorld) = false ∧
    (init unknownTplWorld).exitCode = 0 ∧ (init unknownTplWorld).fs = unknownTplWorld.fs :=
  ⟨by decide,
   (missing_template_source_reported unknownTplWorld (by decide) (by decide)
      (by decide) (by decide)).2.1,
   (missing_template_source_reported unknownTplWorld (by decide) (by decide)
      (by decide) (by decide)).2.2.2⟩

/-- Claim C7: Path resolution is pure and fs-independent: the resolved target
is a function of the raw name and the working directory alone, so two
invocations agreeing on those agree on the resolved target whatever their
filesystems, prompts or fault state — in particular resolving twice yields
the identical absolute path, and existence plays no role; moreover the only
path the program ever existence-checks is that resolved target. -/
theorem resolution_pure (w₁ w₂ : World)
    (hcwd : w₁.cwd = w₂.cwd) (hname : w₁.nameResponse = w₂.nameResponse) :
    targetOf w₁ = targetOf w₂ ∧
    (∀ p r, Ev.existsCheck p r ∈ (init w₁).events → p = targetOf w₁) := by
  constructor
  · unfold targetOf
    rw [hcwd, hname]
  · intro p r hmem
    exact existsCheck_mem hmem

/-- Claim C7 (witness): The statement applied to two concrete runs that share
the working directory and name but differ in their filesystems. -/
theorem resolution_pure_check :
    demoWorld.cwd = otherFsWorld.cwd ∧ demoWorld.nameResponse = otherFsWorld.nameResponse ∧
    demoWorld.fs ≠ otherFsWorld.fs ∧ targetOf demoWorld = targetOf otherFsWorld :=
  ⟨rfl, rfl, by decide, (resolution_pure demoWorld otherFsWorld rfl rfl).1⟩

/-- Claim C8: Every file of the final filesystem was already present or lies
under the resolved target (the single recursive copy is the only write
site); the filesystem changes only if the existence check reported absence;
and every copy invocation copies the template directory into the resolved
target, immediately preceded by the successful (false) existence check. -/
theorem writes_only_copy (w : World) :
    (∀ p c, (p, c) ∈ (init w).fs → (p, c) ∈ w.fs ∨ targetOf w <+: p) ∧
    ((init w).fs ≠ w.fs → pathExists w.fs (targetOf w) = false) ∧
    (∀ s d, Ev.copyCall s d ∈ (init w).events →
      s = tplDirOf w ∧ d = targetOf w ∧
      ∃ tail, (init w).events = promptEvs w ++
        Ev.existsCheck (targetOf w) false :: Ev.copyCall (tplDirOf w) (targetOf w) :: tail) := by
  refine ⟨?_, ?_, ?_⟩
  · intro p c hmem
    by_cases hb : (truthy w.templateResponse && truthy w.nameResponse) = true
    · by_cases hex : pathExists w.fs (targetOf w) = true
      · rw [init_target_exists w hb hex] at hmem
        exact Or.inl hmem
      · rw [Bool.not_eq_true] at hex
        rcases hres : fsCopy w.fs (tplDirOf w) (targetOf w) w.copyFault with ⟨fs', err⟩
        rw [init_copy_result w fs' err hb hex hres] at hmem
        have hmem' : (p, c) ∈ (fsCopy w.fs (tplDirOf w) (targetOf w) w.copyFault).1 := by
          rw [hres]; exact hmem
        exact fsCopy_writes_under hmem'
    · rw [Bool.not_eq_true] at hb
      rw [init_cancel w hb] at hmem
      exact Or.inl hmem
  · intro hne
    by_cases hb : (truthy w.templateResponse && truthy w.nameResponse) = true
    · by_cases hex : pathExists w.fs (targetOf w) = true
      · rw [init_target_exists w hb hex] at hne
        exact absurd rfl hne
      · rwa [Bool.not_eq_true] at hex
    · rw [Bool.not_eq_true] at hb
      rw [init_cancel w hb] at hne
      exact absurd rfl hne
  · intro s d hmem
    obtain ⟨h1, h2, _, htail⟩ := copyCall_mem hmem
    exact ⟨h1, h2, htail⟩

/-- Claim C8 (witness): The first conjunct applied to a concrete file of the
final filesystem of the happy-path run. -/
theorem writes_only_copy_check :
    ((["home", "u", "my-workspace", "SKILL.md"], "skill") ∈ (init demoWorld).fs) ∧
    ((["home", "u", "my-workspace", "SKILL.md"], "skill") ∈ demoWorld.fs ∨
      targetOf demoWorld <+: ["home", "u", "my-workspace", "SKILL.md"]) :=
  ⟨by decide, (writes_only_copy demoWorld).1 _ _ (by decide)⟩

/-- Claim C9: A non-empty relative destination name containing `/` is
permitted: it is joined segment-wise onto the working directory, the run
succeeds with exit status 0, the copied subtree matches the template
subtree, and every prefix of the resolved target — the intermediate
directories included — exists as a directory afterwards. -/
theorem nested_name_permitted (w : World) (name : String)
    (hn : w.nameResponse = some name)
    (_hsep : '/' ∈ name.data)
    (habs : isAbs name = false)
    (hplain : ∀ s ∈ w.cwd ++ splitPath name, s ≠ "." ∧ s ≠ "..")
    (ht : truthy w.templateResponse = true)
    (hne : name ≠ "")
    (htgt : pathExists w.fs (targetOf w) = false)
    (hsrc : isDir w.fs (tplDirOf w) = true)
    (hf : w.copyFault = none) :
    targetOf w = w.cwd ++ splitPath name ∧
    (init w).exitCode = 0 ∧
    subtree (init w).fs (targetOf w) = subtree w.fs (tplDirOf w) ∧
    (∀ q, q <+: targetOf w → isDir (init w).fs q = true) := by
  have hn' : truthy w.nameResponse = true := by
    rw [hn]; simpa [truthy] using hne
  have hb : (truthy w.templateResponse && truthy w.nameResponse) = true := by
    rw [ht, hn']; rfl
  have hsrc' : pathExists w.fs (tplDirOf w) = true := by
    simp [pathExists, hsrc]
  have hres : fsCopy w.fs (tplDirOf w) (targetOf w) w.copyFault =
      (copyTree w.fs (tplDirOf w) (targetOf w), none) := by
    simp [fsCopy, hsrc', hf]
  have htarget : targetOf w = w.cwd ++ splitPath name := by
    simp [targetOf, resolvePath, hn, habs, normSegs_plain hplain]
  obtain ⟨e, he, hnee, hpree⟩ : ∃ e ∈ w.fs, tplDirOf w ≠ e.1 ∧ tplDirOf w <+: e.1 := by
    simpa [isDir, List.any_eq_true, decide_eq_true_eq] using hsrc
  obtain ⟨rest, hrest⟩ := hpree
  have hrestne : rest ≠ [] := by
    intro hr
    apply hnee
    rw [← hrest, hr, List.append_nil]
  have hrel : relocate (tplDirOf w) (targetOf w) e =
      some (targetOf w ++ rest, e.2) := by
    have hpre2 : tplDirOf w <+: e.1 := ⟨rest, hrest⟩
    have hdrop : e.1.drop (tplDirOf w).length = rest := by
      rw [← hrest]; exact List.drop_left _ _
    simp [relocate, hpre2, hdrop]
  have hmemfinal : (targetOf w ++ rest, e.2) ∈ copyTree w.fs (tplDirOf w) (targetOf w) := by
    refine List.mem_append_left _ ?_
    rw [List.mem_filterMap]
    exact ⟨e, he, hrel⟩
  rw [init_copy_result w _ none hb htgt hres]
  refine ⟨htarget, rfl, subtree_copyTree htgt, ?_⟩
  intro q hq
  rw [isDir, List.any_eq_true]
  refine ⟨(targetOf w ++ rest, e.2), hmemfinal, ?_⟩
  rw [decide_eq_true_eq]
  obtain ⟨u, hu⟩ := hq
  constructor
  · intro heq
    have hlen : q.length ≤ (targetOf w).length := by
      rw [← hu]; simp
    rw [heq] at hlen
    simp at hlen
    exact hrestne hlen
  · exact ⟨u ++ rest, by rw [← List.append_assoc, hu]⟩

/-- Claim C9 (witness): The statement applied to the concrete run with
destination name `a/b`: the target is the segment-wise join and the
intermediate directory `home/u/a` exists afterwards. -/
theorem nested_name_permitted_check :
    targetOf sepWorld = sepWorld.cwd ++ splitPath "a/b" ∧
    (init sepWorld).exitCode = 0 ∧
    isDir (init sepWorld).fs ["home", "u", "a"] = true :=
  ⟨(nested_name_permitted sepWorld "a/b" rfl (by decide) (by decide) (by decide)
      (by decide) (by decide) (by decide) (by decide) rfl).1,
   (nested_name_permitted sepWorld "a/b" rfl (by decide) (by decide) (by decide)
      (by decide) (by decide) (by decide) (by decide) rfl).2.1,
   (nested_name_permitted sepWorld "a/b" rfl (by decide) (by decide) (by decide)
      (by decide) (by decide) (by decide) (by decide) rfl).2.2.2
     ["home", "u", "a"] (by decide)⟩

/-- Claim C10: The template source directory is a function of the installed
script's own location and the selected identifier alone: two runs agreeing
on those agree on the template directory whatever their working directory,
destination name or filesystem; and every copy the program performs reads
from exactly that directory. -/
theorem template_source_stable (w₁ w₂ : World)
    (hs : w₁.scriptDir = w₂.scriptDir)
    (htpl : w₁.templateResponse = w₂.templateResponse) :
    tplDirOf w₁ = tplDirOf w₂ ∧
    (∀ s d, Ev.copyCall s d ∈ (init w₁).events → s = tplDirOf w₁) := by
  constructor
  · unfold tplDirOf
    rw [hs, htpl]
  · intro s d hmem
    exact (copyCall_mem hmem).1

/-- Claim C10 (witness): The statement applied to two concrete runs differing
in working directory and destination name but sharing the script location
and the selected identifier. -/
theorem template_source_stable_check :
    demoWorld.cwd ≠ movedWorld.cwd ∧ demoWorld.nameResponse ≠ movedWorld.nameResponse ∧
    tplDirOf demoWorld = tplDirOf movedWorld :=
  ⟨by decide, by decide, (template_source_stable demoWorld movedWorld rfl rfl).1⟩

end Scaffold
